import Mathlib

/-!
Shallow embedding of the pingo plugin bootstrap/transport layer
(`server.go`): the authenticator, the per-connection dispatcher, the
registry, the two address allocators (tcp, unix) and the `run` bootstrap
loop, together with theorems checking the specification's claims.

Bytes are modelled as natural numbers (a byte stream is a `List Nat`);
the line-oriented handshake channel and the bind attempts are modelled
as an explicit trace of events.
-/

namespace Pingo

/-! ### Authenticator (`authConn`, server.go lines 84-92) -/

/-- `io.ReadFull(conn, buf)` into a fresh zeroed 64-byte buffer: the first
64 bytes of the stream, padded with 0 bytes when fewer than 64 arrive
before EOF (the source ignores `ReadFull`'s error and keeps the buffer). -/
def readFull64 (data : List Nat) : List Nat :=
  data.take 64 ++ List.replicate (64 - data.length) 0

/-- `func (r *rpcServer) authConn(conn io.Reader) bool`: reads 64 bytes
and compares the buffer byte-for-byte with the server secret
(`string(buf) == r.secret`). -/
def authConn (secret : List Nat) (data : List Nat) : Bool :=
  readFull64 data == secret

/-- A printable byte, as produced by `randstr` (the spec: `randstr(n)`
returns n cryptographically-unpredictable printable characters). -/
def printableByte (b : Nat) : Prop := 32 ≤ b ∧ b ≤ 126

instance (b : Nat) : Decidable (printableByte b) := by
  unfold printableByte; infer_instance

/-! ### Connection dispatcher (`serveConn`, server.go lines 94-99)

Each accepted connection is handed to its own goroutine running
`serveConn`; we record what a handler does to its connection as a list
of actions. `ServeConn` (the external call-dispatch engine) is the
`serveRpc` action; `authConn` only reads, so the source's rejected path
performs exactly one action: `conn.Close()`. -/

inductive ConnAction : Type
  | serveRpc : ConnAction
  | write : List Nat → ConnAction
  | close : ConnAction
  deriving DecidableEq, Repr

/-- `func (r *rpcServer) serveConn(conn io.ReadWriteCloser)`. -/
def serveConn (secret : List Nat) (data : List Nat) : List ConnAction :=
  if authConn secret data then [ConnAction.serveRpc, ConnAction.close]
  else [ConnAction.close]

/-- `go r.serveConn(conn)` per accepted connection: each connection in a
batch of concurrently accepted ones is handled by its own independent
handler, a function only of that connection's own input. -/
def dispatchAll (secret : List Nat) (conns : List (List Nat)) : List (List ConnAction) :=
  conns.map (serveConn secret)

/-! ### Registry (`Register` / `register`, server.go lines 21-26, 101-105)

`register` derives a diagnostic name with `reflect.TypeOf(obj).Elem()`,
which panics unless the value's reflective kind is dereferenceable
(Array, Chan, Map, Pointer or Slice).  A registered value is modelled by
its reflective kind and the name of its element type; a panic is an
`Except.error` carrying the panic message. -/

inductive GoKind : Type
  | ptr | array | chan | map | slice | struct | int | string | func | interface
  deriving DecidableEq, Repr

/-- A Go value as seen by this layer: its reflective kind and the
declared name of its element type (meaningful for dereferenceable kinds). -/
structure GoValue : Type where
  kind : GoKind
  elemName : String
  deriving DecidableEq, Repr

/-- The kinds on which `reflect.Type.Elem()` does not panic. -/
def derefKind : GoKind → Bool
  | GoKind.ptr | GoKind.array | GoKind.chan | GoKind.map | GoKind.slice => true
  | _ => false

/-- `reflect.TypeOf(obj).Elem().Name()`: the element type's name, or the
reflect panic for a non-dereferenceable kind. -/
def typeElemName (v : GoValue) : Except String String :=
  if derefKind v.kind then Except.ok v.elemName
  else Except.error "reflect: Elem of invalid type"

/-- The registry-relevant server state: the exposed-object name list and
the `running` flag (`rpcServer.objs`, `rpcServer.running`). -/
structure ServerState : Type where
  objs : List String
  running : Bool
  deriving DecidableEq, Repr

/-- `func (r *rpcServer) register(obj interface{})`: derive the type name
(possibly panicking), append it to `objs` and forward to the engine. -/
def register (s : ServerState) (v : GoValue) : Except String ServerState :=
  (typeElemName v).map fun n => { s with objs := s.objs ++ [n] }

/-- `func Register(obj interface{})`: panic if `running`, else delegate
to `register` on the default server state. -/
def Register (s : ServerState) (v : GoValue) : Except String ServerState :=
  if s.running then Except.error "Do not call Register after Run"
  else register s v

/-- A sequence of user calls to `Register`, stopping at the first panic. -/
def registerMany (s : ServerState) (vs : List GoValue) : Except String ServerState :=
  vs.foldlM Register s

/-- The value `&PingoRpc{}` registered by `newRpcServer`. -/
def pingoRpcValue : GoValue := { kind := GoKind.ptr, elemName := "PingoRpc" }

/-- `newRpcServer` (server.go lines 71-80): fresh empty object list,
`running` false, then `r.register(&PingoRpc{})` (which succeeds: the
argument is a pointer).  The error branch of the match is unreachable. -/
def newRpcServer : ServerState :=
  match register { objs := [], running := false } pingoRpcValue with
  | Except.ok s => s
  | Except.error _ => { objs := [], running := false }

/-! ### Address allocators (server.go lines 112-140) -/

/-- `func (t *tcp) addr() string`: clamp the cursor to at least 1023,
increment, return the loopback address with the new cursor as port.
Returns the updated cursor together with the address.  The cursor is a
Go `int`, modelled as `Int`; its zero value is 0. -/
def tcpAddr (t : Int) : Int × String :=
  let t1 := if t < 1024 then 1023 else t
  (t1 + 1, "127.0.0.1:" ++ toString (t1 + 1))

/-- `func (t *tcp) retries() int`. -/
def tcpRetries : Nat := 500

/-- Go `path.Join(dir, name)` followed by `filepath.FromSlash`, for the
non-empty clean directory paths used here: join with the host path
separator (`/`; `FromSlash` is the identity on slash-separated hosts,
and `path.Clean` is the identity on these already-clean inputs). -/
def pathJoin (dir name : String) : String := dir ++ "/" ++ name

/-- `func (u *unix) addr() string` with the 8-character random name
supplied by `randstr(8)` passed in explicitly: if the carried directory
is non-empty, join it with the name, else use the bare name. -/
def unixAddr (u : String) (name : String) : String :=
  if u ≠ "" then pathJoin u name else name

/-- `func (u *unix) retries() int`. -/
def unixRetries : Nat := 4

/-- Successive calls to the unix allocator's `addr()`: the state counts
how many names the `randstr` stream `names` has produced so far. -/
def unixStep (names : Nat → String) (dir : String) (i : Nat) : Nat × String :=
  (i + 1, unixAddr dir (names i))

/-! ### Listener bootstrap (`run`, server.go lines 142-174)

`run` is modelled up to the point where it either returns the bind error
or enters the accept loop: what it emits on the handshake channel
(`h.output(key, value)`) and which bind attempts it makes are recorded
as a trace of events, and the result is the successfully bound address,
if any.  The environment is a predicate `free` saying which addresses
`net.Listen` can bind. -/

inductive Event : Type
  | output : String → String → Event
  | bindAttempt : String → String → Bool → Event
  deriving DecidableEq, Repr

/-- Modelled from the spec: the dedicated connection-failure error code
(`errorCodeConnFailed`, defined outside this file's source); the spec
fixes only its existence, not its literal value, and no theorem below
depends on the value chosen here. -/
def errorCodeConnFailed : String := "err-conn-failed"

/-- The bind-retry-exhaustion message built by `run` (server.go line 169):
`fmt.Sprintf("%s: Could not connect in %d attemps, using %s protocol", ...)`.
Note the source spells "attemps". -/
def fatalMsg (code : String) (n : Nat) (proto : String) : String :=
  code ++ ": Could not connect in " ++ toString n ++ " attemps, using " ++ proto ++ " protocol"

/-- `strings.Join(elems, sep)`: concatenate the elements with the
separator between consecutive elements (no leading/trailing separator). -/
def goJoin (elems : List String) (sep : String) : String :=
  match elems with
  | [] => ""
  | [a] => a
  | a :: rest => a ++ sep ++ goJoin rest sep

/-- The configuration built by `makeConfig` (the handshake-line text
prefix is omitted: it only decorates `output` lines, which are modelled
as key/value events). -/
structure GoConfig : Type where
  proto : String
  addr : String
  unixdir : String
  deriving DecidableEq, Repr

/-- The scheme `run` settles on: anything other than "tcp" falls back to
"unix" (server.go lines 152-158 rewrite `r.conf.proto`). -/
def runProto (conf : GoConfig) : String :=
  if conf.proto = "tcp" then "tcp" else "unix"

/-- The retry budget of the allocator `run` selects. -/
def runRetries (conf : GoConfig) : Nat :=
  if conf.proto = "tcp" then tcpRetries else unixRetries

/-- The bind loop (server.go lines 160-166): up to `k` iterations of
"generate a candidate with the allocator `step`, attempt to bind it";
stops at the first success.  Returns the bind attempts made and the
bound address, if any. -/
def attemptLoop {σ : Type} (proto : String) (free : String → Bool)
    (step : σ → σ × String) : σ → Nat → List Event × Option String
  | _, 0 => ([], none)
  | s, k + 1 =>
    let a := (step s).2
    if free a then ([Event.bindAttempt proto a true], some a)
    else
      let rest := attemptLoop proto free step (step s).1 k
      (Event.bindAttempt proto a false :: rest.1, rest.2)

/-- The successive candidate addresses an allocator generates. -/
def candidates {σ : Type} (step : σ → σ × String) : σ → Nat → List String
  | _, 0 => []
  | s, k + 1 => (step s).2 :: candidates step (step s).1 k

/-- The bind attempts `run` makes: the allocator is selected by the
scheme.  The unix allocator is created with `new(unix)`, whose zero
value is the empty string — `conf.unixdir` is never consulted by the
source's `run` (server.go line 157). -/
def runAttempts (conf : GoConfig) (free : String → Bool) (names : Nat → String) :
    List Event × Option String :=
  if conf.proto = "tcp" then attemptLoop "tcp" free tcpAddr 0 tcpRetries
  else attemptLoop "unix" free (unixStep names "") 0 unixRetries

/-- `func (r *rpcServer) run() error`, up to entering the accept loop:
emit the objects line, run the bind loop, then either emit the fatal
line and return the error (`none`) or emit the auth-token and ready
lines and return the bound address. -/
def runBoot (conf : GoConfig) (objs : List String) (secret : String)
    (free : String → Bool) (names : Nat → String) : List Event × Option String :=
  let pr := runProto conf
  let atr := runAttempts conf free names
  match atr.2 with
  | none =>
    (Event.output "objects" (goJoin objs ", ") :: atr.1 ++
      [Event.output "fatal" (fatalMsg errorCodeConnFailed (runRetries conf) pr)], none)
  | some a =>
    (Event.output "objects" (goJoin objs ", ") :: atr.1 ++
      [Event.output "auth-token" secret,
       Event.output "ready" ("proto=" ++ pr ++ " addr=" ++ a)], some a)

/-- How many outputs with the given key a trace contains. -/
def countOut (tr : List Event) (key : String) : Nat :=
  tr.countP fun e =>
    match e with
    | Event.output k _ => k == key
    | _ => false

/-! ### Lemmas about the authenticator -/

theorem readFull64_length (data : List Nat) : (readFull64 data).length = 64 := by
  simp [readFull64]
  omega

/-- Helper: `authConn` succeeds exactly on streams that deliver at least 64
bytes whose first 64 bytes are the secret, provided the secret is a
64-byte string of printable (hence nonzero) bytes. -/
theorem authConn_iff (secret data : List Nat)
    (hlen : secret.length = 64) (hpr : ∀ b ∈ secret, printableByte b) :
    authConn secret data = true ↔ 64 ≤ data.length ∧ data.take 64 = secret := by
  unfold authConn
  rw [beq_iff_eq]
  by_cases hle : 64 ≤ data.length
  · have hrep : 64 - data.length = 0 := by omega
    simp [readFull64, hrep, hle]
  · push_neg at hle
    constructor
    · intro heq
      exfalso
      have hidx : (readFull64 data).get? data.length = some 0 := by
        have htl : (data.take 64).length = data.length := by
          simp; omega
        rw [readFull64, List.get?_eq_getElem?, List.getElem?_append_right (by omega)]
        rw [htl, Nat.sub_self]
        have : 64 - data.length = (64 - data.length - 1) + 1 := by omega
        rw [this, List.replicate_succ]
        simp
      have hsec : secret.get? data.length = some 0 := by
        rw [← heq]; exact hidx
      have hmem : (0 : Nat) ∈ secret := by
        exact List.get?_mem hsec
      have := hpr 0 hmem
      unfold printableByte at this
      omega
    · intro ⟨h1, _⟩
      omega

/-! ### Lemmas about the bind loop -/

theorem attemptLoop_res {σ : Type} (proto : String) (free : String → Bool)
    (step : σ → σ × String) (s : σ) (k : Nat) :
    (attemptLoop proto free step s k).2 = (candidates step s k).find? free := by
  induction k generalizing s with
  | zero => rfl
  | succ k ih =>
    rw [attemptLoop, candidates, List.find?]
    by_cases h : free (step s).2
    · simp [h]
    · simp only [h, Bool.false_eq_true, if_false, cond_false]
      exact ih (step s).1

theorem attemptLoop_events {σ : Type} (proto : String) (free : String → Bool)
    (step : σ → σ × String) (s : σ) (k : Nat) :
    ∀ e ∈ (attemptLoop proto free step s k).1, ∃ a b, e = Event.bindAttempt proto a b := by
  induction k generalizing s with
  | zero => intro e he; cases he
  | succ k ih =>
    intro e he
    rw [attemptLoop] at he
    by_cases h : free (step s).2
    · simp only [h, if_true, List.mem_singleton] at he
      exact ⟨_, _, he⟩
    · simp only [h, Bool.false_eq_true, if_false, List.mem_cons] at he
      rcases he with he | he
      · exact ⟨_, _, he⟩
      · exact ih (step s).1 e he

theorem countOut_attemptLoop {σ : Type} (proto : String) (free : String → Bool)
    (step : σ → σ × String) (s : σ) (k : Nat) (key : String) :
    countOut (attemptLoop proto free step s k).1 key = 0 := by
  rw [countOut, List.countP_eq_zero]
  intro e he
  obtain ⟨a, b, rfl⟩ := attemptLoop_events proto free step s k e he
  simp

theorem candidates_unixStep (names : Nat → String) (dir : String) (i k : Nat) :
    candidates (unixStep names dir) i k
      = (List.range' i k).map fun j => unixAddr dir (names j) := by
  induction k generalizing i with
  | zero => rfl
  | succ k ih =>
    rw [candidates, List.range']
    simp only [List.map_cons]
    exact congrArg _ (ih (i + 1))

theorem tcpAddr_of_ge (t : Int) (h : 1023 ≤ t) :
    tcpAddr t = (t + 1, "127.0.0.1:" ++ toString (t + 1)) := by
  by_cases h1 : t < 1024
  · have ht : t = 1023 := by omega
    subst ht
    rfl
  · unfold tcpAddr
    simp [h1]

theorem candidates_tcpAddr (t : Int) (h : 1023 ≤ t) (k : Nat) :
    candidates tcpAddr t k
      = (List.range k).map fun j : Nat => "127.0.0.1:" ++ toString (t + 1 + (j : Int)) := by
  induction k generalizing t with
  | zero => rfl
  | succ k ih =>
    rw [candidates, List.range_succ_eq_map]
    rw [List.map_cons, List.map_map]
    rw [tcpAddr_of_ge t h]
    refine congrArg₂ _ (by norm_num) ?_
    rw [ih (t + 1) (by omega)]
    refine List.map_congr_left fun j _ => ?_
    simp only [Function.comp_apply, Nat.succ_eq_add_one]
    refine congrArg _ (congrArg _ ?_)
    push_cast
    ring

/-! ### Lemmas about the registry -/

theorem register_ok (s : ServerState) (v : GoValue) (h : derefKind v.kind = true) :
    register s v = Except.ok { s with objs := s.objs ++ [v.elemName] } := by
  simp [register, typeElemName, h, Except.map]

theorem register_ok_objs (u : ServerState) (v : GoValue) (w : ServerState)
    (h : register u v = Except.ok w) :
    w.objs = u.objs ++ [v.elemName] ∧ w.running = u.running := by
  by_cases hk : derefKind v.kind
  · rw [register_ok u v hk] at h
    cases h
    exact ⟨rfl, rfl⟩
  · rw [register, typeElemName, if_neg hk] at h
    cases h

theorem registerMany_ok (vs : List GoValue) (s : ServerState)
    (hrun : s.running = false) (hk : ∀ v ∈ vs, derefKind v.kind = true) :
    registerMany s vs
      = Except.ok { objs := s.objs ++ vs.map GoValue.elemName, running := false } := by
  induction vs generalizing s with
  | nil =>
    simp only [registerMany, List.foldlM, List.map_nil, List.append_nil]
    cases s
    simp_all
    rfl
  | cons v vs ih =>
    have hv := hk v (List.mem_cons_self v vs)
    have h1 : Register s v = Except.ok { s with objs := s.objs ++ [v.elemName] } := by
      rw [Register, if_neg (by simp [hrun])]
      exact register_ok s v hv
    have h2 : registerMany s (v :: vs)
        = registerMany { s with objs := s.objs ++ [v.elemName] } vs := by
      rw [registerMany, List.foldlM_cons, h1]
      rfl
    rw [h2, ih { s with objs := s.objs ++ [v.elemName] } hrun
      (fun w hw => hk w (List.mem_cons_of_mem v hw))]
    simp

theorem goJoin_head_prefix (a : String) (rest : List String) :
    ∃ tail, goJoin (a :: rest) ", " = a ++ tail := by
  cases rest with
  | nil => exact ⟨"", (String.append_empty a).symm⟩
  | cons b bs =>
    have h : goJoin (a :: b :: bs) ", " = a ++ ", " ++ goJoin (b :: bs) ", " := rfl
    exact ⟨", " ++ goJoin (b :: bs) ", ", by rw [h, String.append_assoc]⟩

/-! ### Lemmas about the bootstrap trace -/

theorem runBoot_res (conf : GoConfig) (objs : List String) (secret : String)
    (free : String → Bool) (names : Nat → String) :
    (runBoot conf objs secret free names).2 = (runAttempts conf free names).2 := by
  rw [runBoot]
  cases (runAttempts conf free names).2 <;> rfl

theorem runBoot_trace_none (conf : GoConfig) (objs : List String) (secret : String)
    (free : String → Bool) (names : Nat → String)
    (h : (runAttempts conf free names).2 = none) :
    (runBoot conf objs secret free names).1
      = Event.output "objects" (goJoin objs ", ") :: (runAttempts conf free names).1 ++
          [Event.output "fatal"
            (fatalMsg errorCodeConnFailed (runRetries conf) (runProto conf))] := by
  rw [runBoot]
  rw [h]

theorem runBoot_trace_some (conf : GoConfig) (objs : List String) (secret : String)
    (free : String → Bool) (names : Nat → String) (a : String)
    (h : (runAttempts conf free names).2 = some a) :
    (runBoot conf objs secret free names).1
      = Event.output "objects" (goJoin objs ", ") :: (runAttempts conf free names).1 ++
          [Event.output "auth-token" secret,
           Event.output "ready" ("proto=" ++ runProto conf ++ " addr=" ++ a)] := by
  rw [runBoot]
  rw [h]

theorem countOut_runAttempts (conf : GoConfig) (free : String → Bool)
    (names : Nat → String) (key : String) :
    countOut (runAttempts conf free names).1 key = 0 := by
  rw [runAttempts]
  by_cases h : conf.proto = "tcp"
  · rw [if_pos h]
    exact countOut_attemptLoop _ _ _ _ _ _
  · rw [if_neg h]
    exact countOut_attemptLoop _ _ _ _ _ _

theorem countOut_cons_output (k v key : String) (tr : List Event) :
    countOut (Event.output k v :: tr) key
      = (if k == key then 1 else 0) + countOut tr key := by
  rw [countOut, List.countP_cons, countOut]
  by_cases h : k == key <;> simp [h] <;> omega

theorem countOut_append (tr tr' : List Event) (key : String) :
    countOut (tr ++ tr') key = countOut tr key + countOut tr' key :=
  List.countP_append _ _ _

theorem countOut_nil (key : String) : countOut [] key = 0 := rfl

theorem runAttempts_res_unix (conf : GoConfig) (free : String → Bool)
    (names : Nat → String) (h : conf.proto ≠ "tcp") :
    (runAttempts conf free names).2
      = [names 0, names 1, names 2, names 3].find? free := by
  rw [runAttempts, if_neg h, attemptLoop_res]
  have hc : candidates (unixStep names "") 0 unixRetries
      = [names 0, names 1, names 2, names 3] := by
    rw [show unixRetries = 4 from rfl]
    have h4 : candidates (unixStep names "") 0 4
        = (List.range' 0 4).map fun j => unixAddr "" (names j) :=
      candidates_unixStep names "" 0 4
    rw [h4, show List.range' 0 4 = [0, 1, 2, 3] from rfl]
    simp [unixAddr]
  rw [hc]

theorem runAttempts_res_tcp (conf : GoConfig) (free : String → Bool)
    (names : Nat → String) (h : conf.proto = "tcp") :
    (runAttempts conf free names).2
      = ("127.0.0.1:1024" ::
          (List.range 499).map fun j : Nat =>
            "127.0.0.1:" ++ toString ((1025 : Int) + (j : Int))).find? free := by
  rw [runAttempts, if_pos h, attemptLoop_res]
  have h500 : tcpRetries = 499 + 1 := rfl
  rw [h500, candidates]
  have h0 : tcpAddr 0 = (1024, "127.0.0.1:1024") := rfl
  rw [h0]
  rw [candidates_tcpAddr 1024 (by norm_num) 499]
  norm_num

/-! ### Claim theorems -/

/-- C1: for every connection, `authConn` returns true if and only if the
64 bytes read from the connection are byte-for-byte identical to the
server's 64-character secret; any byte difference, or a read that
delivers fewer than 64 bytes, makes it return false (precondition: the
secret is a 64-character string of printable characters, as produced by
`randstr(64)`). -/
theorem authConn_correct (secret data : List Nat)
    (hlen : secret.length = 64) (hpr : ∀ b ∈ secret, printableByte b) :
    (authConn secret data = true ↔ 64 ≤ data.length ∧ data.take 64 = secret) ∧
    (data.length < 64 → authConn secret data = false) := by
  refine ⟨authConn_iff secret data hlen hpr, fun hlt => ?_⟩
  rw [← Bool.not_eq_true]
  intro htrue
  have := (authConn_iff secret data hlen hpr).mp htrue
  omega

/-- Witness for C1 at a concrete secret and two concrete connections. -/
theorem authConn_correct_witness :
    authConn (List.replicate 64 65) (List.replicate 64 65) = true ∧
    authConn (List.replicate 64 65) (List.replicate 10 65) = false := by
  constructor
  · exact (authConn_correct (List.replicate 64 65) (List.replicate 64 65)
      (by decide) (by decide)).1.mpr (by decide)
  · exact (authConn_correct (List.replicate 64 65) (List.replicate 10 65)
      (by decide) (by decide)).2 (by decide)

/-- C5: for the TCP allocator starting from an unset (zero) cursor, the
first generated address has port 1024; every subsequent call (i.e. a call
on the cursor left behind by any previous call) yields a port exactly one
greater than the previous one; no generated port is ever below 1024; and
every generated address is of the form `127.0.0.1:<port>`. -/
theorem tcp_allocator_correct :
    (tcpAddr 0).1 = 1024 ∧ (tcpAddr 0).2 = "127.0.0.1:1024" ∧
    (∀ t : Int, (tcpAddr ((tcpAddr t).1)).1 = (tcpAddr t).1 + 1) ∧
    (∀ t : Int, 1024 ≤ (tcpAddr t).1) ∧
    (∀ t : Int, (tcpAddr t).2 = "127.0.0.1:" ++ toString ((tcpAddr t).1)) := by
  have hge : ∀ t : Int, 1024 ≤ (tcpAddr t).1 := by
    intro t
    unfold tcpAddr
    by_cases h : t < 1024 <;> simp [h] <;> omega
  refine ⟨rfl, rfl, fun t => ?_, hge, fun t => rfl⟩
  rw [tcpAddr_of_ge ((tcpAddr t).1) (by have := hge t; omega)]

/-- C8: every accepted connection whose first 64 bytes are not exactly
the secret is closed without being handed to the call-dispatch engine
(`ServeConn` is never invoked) and without writing any bytes back to the
peer; its handler's actions are among the batch's handler outputs, each
handler depending only on its own connection, so this holds regardless of
how many connections are handled concurrently. -/
theorem serveConn_rejects (secret : List Nat) (conns : List (List Nat))
    (c : List Nat) (hc : c ∈ conns)
    (hlen : secret.length = 64) (hpr : ∀ b ∈ secret, printableByte b)
    (hbad : ¬(64 ≤ c.length ∧ c.take 64 = secret)) :
    serveConn secret c = [ConnAction.close] ∧
    ConnAction.serveRpc ∉ serveConn secret c ∧
    (∀ bs, ConnAction.write bs ∉ serveConn secret c) ∧
    serveConn secret c ∈ dispatchAll secret conns := by
  have hfalse : authConn secret c = false := by
    rw [← Bool.not_eq_true]
    intro htrue
    exact hbad ((authConn_iff secret c hlen hpr).mp htrue)
  have hsc : serveConn secret c = [ConnAction.close] := by
    rw [serveConn, hfalse]
    simp
  refine ⟨hsc, ?_, ?_, List.mem_map_of_mem _ hc⟩
  · rw [hsc]
    simp
  · intro bs
    rw [hsc]
    simp

/-- Witness for C8: two concurrent connections, one with a wrong secret,
one too short. -/
theorem serveConn_rejects_witness :
    serveConn (List.replicate 64 65) (List.replicate 64 66) = [ConnAction.close] ∧
    serveConn (List.replicate 64 65) [65, 65] = [ConnAction.close] := by
  constructor
  · exact (serveConn_rejects (List.replicate 64 65)
      [List.replicate 64 66, [65, 65]] (List.replicate 64 66)
      (by decide) (by decide) (by decide) (by decide)).1
  · exact (serveConn_rejects (List.replicate 64 65)
      [List.replicate 64 66, [65, 65]] [65, 65]
      (by decide) (by decide) (by decide) (by decide)).1

/-- C10: calling `Register` with any value whose reflective kind is not
dereferenceable (not a pointer, array, chan, map or slice) panics in
`reflect.TypeOf(obj).Elem()` even before the bootstrap phase starts, so
the set of values `Register` accepts without failing is restricted to
dereferenceable values. -/
theorem Register_nonderef_panics (s : ServerState) (v : GoValue)
    (hrun : s.running = false) (hk : derefKind v.kind = false) :
    Register s v = Except.error "reflect: Elem of invalid type" := by
  rw [Register, if_neg (by simp [hrun]), register, typeElemName, if_neg (by simp [hk])]
  rfl

/-- Witness for C10: registering a plain struct value before `Run`. -/
theorem Register_nonderef_panics_witness :
    Register { objs := ["PingoRpc"], running := false }
        { kind := GoKind.struct, elemName := "T" }
      = Except.error "reflect: Elem of invalid type" :=
  Register_nonderef_panics { objs := ["PingoRpc"], running := false }
    { kind := GoKind.struct, elemName := "T" } (by decide) (by decide)

/-- Counterexample to C3 as stated: `Register` can fail even though the
bootstrap phase has not started (`running = false`), namely on a value
whose reflective kind is not dereferenceable. -/
theorem Register_before_run_can_fail :
    ({ objs := ["PingoRpc"], running := false } : ServerState).running = false ∧
    Register { objs := ["PingoRpc"], running := false }
        { kind := GoKind.int, elemName := "X" }
      = Except.error "reflect: Elem of invalid type" :=
  ⟨rfl, rfl⟩

/-- C3 (amended): for any number of calls with dereferenceable (e.g.
pointer) values, `Register` succeeds as long as the bootstrap phase has
not started (`running = false`), appending exactly the derived names; and
every call to `Register` after the bootstrap phase has started
(`running = true`) aborts with the message "Do not call Register after
Run" before touching any state, leaving no partial registration. -/
theorem Register_lifecycle (s : ServerState) (vs : List GoValue)
    (hrun : s.running = false) (hk : ∀ v ∈ vs, derefKind v.kind = true) :
    registerMany s vs
      = Except.ok { objs := s.objs ++ vs.map GoValue.elemName, running := false } ∧
    (∀ (t : ServerState) (v : GoValue), t.running = true →
      Register t v = Except.error "Do not call Register after Run") := by
  refine ⟨registerMany_ok vs s hrun hk, fun t v ht => ?_⟩
  rw [Register, if_pos (by simp [ht])]

/-- Witness for C3 (amended): two registrations before `Run`, and one
attempted after. -/
theorem Register_lifecycle_witness :
    registerMany { objs := ["PingoRpc"], running := false }
        [{ kind := GoKind.ptr, elemName := "A" }, { kind := GoKind.ptr, elemName := "B" }]
      = Except.ok { objs := ["PingoRpc", "A", "B"], running := false } ∧
    Register { objs := ["PingoRpc", "A", "B"], running := true }
        { kind := GoKind.ptr, elemName := "C" }
      = Except.error "Do not call Register after Run" := by
  have h := Register_lifecycle { objs := ["PingoRpc"], running := false }
    [{ kind := GoKind.ptr, elemName := "A" }, { kind := GoKind.ptr, elemName := "B" }]
    (by decide) (by decide)
  exact ⟨h.1, h.2 { objs := ["PingoRpc", "A", "B"], running := true }
    { kind := GoKind.ptr, elemName := "C" } (by decide)⟩

/-- C9: the control object `PingoRpc` is registered during server
construction, so the exposed-object name list of the fresh server is
exactly `["PingoRpc"]`; every successful `register` only appends, so
after any successful sequence of user registrations the list still has
"PingoRpc" as its first element, and the objects handshake line (the
comma-and-space join) starts with "PingoRpc". -/
theorem pingoRpc_first (vs : List GoValue) (t : ServerState)
    (h : registerMany newRpcServer vs = Except.ok t) :
    newRpcServer.objs = ["PingoRpc"] ∧
    (∀ (u : ServerState) (v : GoValue) (w : ServerState),
      register u v = Except.ok w → w.objs = u.objs ++ [v.elemName]) ∧
    t.objs.head? = some "PingoRpc" ∧
    (∃ tail, goJoin t.objs ", " = "PingoRpc" ++ tail) := by
  have hmono : ∀ (ws : List GoValue) (u x : ServerState),
      registerMany u ws = Except.ok x → ∃ ns, x.objs = u.objs ++ ns := by
    intro ws
    induction ws with
    | nil =>
      intro u x hx
      rw [registerMany, List.foldlM_nil] at hx
      cases hx
      exact ⟨[], by simp⟩
    | cons w ws ih =>
      intro u x hx
      rw [registerMany, List.foldlM_cons] at hx
      cases hR : Register u w with
      | error e =>
        rw [hR] at hx
        cases hx
      | ok u' =>
        rw [hR] at hx
        have hx' : registerMany u' ws = Except.ok x := hx
        obtain ⟨ns, hns⟩ := ih u' x hx'
        have hu' : u'.objs = u.objs ++ [w.elemName] := by
          rw [Register] at hR
          by_cases hb : u.running
          · rw [if_pos (by simp [hb])] at hR
            cases hR
          · rw [if_neg (by simp [hb])] at hR
            exact (register_ok_objs u w u' hR).1
        exact ⟨[w.elemName] ++ ns, by rw [hns, hu', List.append_assoc]⟩
  obtain ⟨ns, hns⟩ := hmono vs newRpcServer t h
  have hobjs : newRpcServer.objs = ["PingoRpc"] := rfl
  rw [hobjs] at hns
  refine ⟨hobjs, fun u v w hw => (register_ok_objs u v w hw).1, ?_, ?_⟩
  · rw [hns]
    rfl
  · rw [hns]
    exact goJoin_head_prefix "PingoRpc" ns

/-- Witness for C9: one user registration on the fresh server. -/
theorem pingoRpc_first_witness :
    ({ objs := ["PingoRpc", "MyObj"], running := false } : ServerState).objs.head?
      = some "PingoRpc" ∧
    (∃ tail, goJoin ["PingoRpc", "MyObj"] ", " = "PingoRpc" ++ tail) := by
  have h := pingoRpc_first [{ kind := GoKind.ptr, elemName := "MyObj" }]
    { objs := ["PingoRpc", "MyObj"], running := false } rfl
  exact ⟨h.2.2.1, h.2.2.2⟩

/-- C2 (the code at the failing input): with `unixdir` configured to
"/tmp/sockets", the bootstrap still binds the bare 8-character name —
`run` builds its unix allocator with `new(unix)`, whose zero value is the
empty base directory, and never consults `conf.unixdir` — although the
allocator applied to the configured directory (`unix.addr` with a
non-empty carried directory) would produce the joined path. -/
theorem run_ignores_unixdir :
    (runBoot { proto := "unix", addr := "", unixdir := "/tmp/sockets" }
        ["PingoRpc"] "s" (fun _ => true) (fun _ => "abcd1234")).2 = some "abcd1234" ∧
    unixAddr "/tmp/sockets" "abcd1234" = "/tmp/sockets/abcd1234" := by
  constructor
  · decide
  · decide

/-- C4: the bind loop attempts at most the scheme's retry limit of
candidates and stops at the first success: with the unix scheme, if the
first 3 candidates fail to bind and the 4th binds, bootstrap succeeds on
the 4th candidate; if all 4 fail, `run` returns the failure and the fatal
line carries retry count 4; with the tcp scheme, if all 500 candidate
ports 1024..1523 are taken, `run` returns the failure and the fatal line
carries retry count 500 — the hypotheses say nothing about port 1524 or
beyond, so a 501st candidate is never consulted. -/
theorem run_bind_retry (conf : GoConfig) (objs : List String) (secret : String)
    (free : String → Bool) (names : Nat → String) :
    (conf.proto ≠ "tcp" →
      free (names 0) = false → free (names 1) = false → free (names 2) = false →
      free (names 3) = true →
      (runBoot conf objs secret free names).2 = some (names 3)) ∧
    (conf.proto ≠ "tcp" → (∀ i, i < 4 → free (names i) = false) →
      (runBoot conf objs secret free names).2 = none ∧
      Event.output "fatal" (fatalMsg errorCodeConnFailed 4 "unix")
        ∈ (runBoot conf objs secret free names).1) ∧
    (conf.proto = "tcp" →
      (∀ p : Int, 1024 ≤ p → p ≤ 1523 → free ("127.0.0.1:" ++ toString p) = false) →
      (runBoot conf objs secret free names).2 = none ∧
      Event.output "fatal" (fatalMsg errorCodeConnFailed 500 "tcp")
        ∈ (runBoot conf objs secret free names).1) := by
  refine ⟨?_, ?_, ?_⟩
  · intro h hn0 hn1 hn2 hn3
    rw [runBoot_res, runAttempts_res_unix conf free names h]
    simp [List.find?, hn0, hn1, hn2, hn3]
  · intro h hall
    have hres : (runAttempts conf free names).2 = none := by
      rw [runAttempts_res_unix conf free names h]
      simp [List.find?, hall 0 (by norm_num), hall 1 (by norm_num),
        hall 2 (by norm_num), hall 3 (by norm_num)]
    have hr : runRetries conf = 4 := by rw [runRetries, if_neg h]; rfl
    have hp : runProto conf = "unix" := by rw [runProto, if_neg h]
    refine ⟨by rw [runBoot_res]; exact hres, ?_⟩
    rw [runBoot_trace_none conf objs secret free names hres, hr, hp]
    simp
  · intro h hall
    have hres : (runAttempts conf free names).2 = none := by
      rw [runAttempts_res_tcp conf free names h]
      rw [List.find?_eq_none]
      intro x hx
      rcases List.mem_cons.mp hx with hx0 | hxm
      · subst hx0
        have heq : ("127.0.0.1:1024" : String)
            = "127.0.0.1:" ++ toString (1024 : Int) := by decide
        rw [heq, hall 1024 (by norm_num) (by norm_num)]
        simp
      · obtain ⟨j, hj, rfl⟩ := List.mem_map.mp hxm
        have hjb : j < 499 := List.mem_range.mp hj
        rw [hall ((1025 : Int) + (j : Int)) (by omega) (by omega)]
        simp
    have hr : runRetries conf = 500 := by rw [runRetries, if_pos h]; rfl
    have hp : runProto conf = "tcp" := by rw [runProto, if_pos h]
    refine ⟨by rw [runBoot_res]; exact hres, ?_⟩
    rw [runBoot_trace_none conf objs secret free names hres, hr, hp]
    simp

/-- Witness for C4: a unix run where the 4th candidate is the only free
one among the first four, a unix run where no address is free, and a tcp
run where no address is free. -/
theorem run_bind_retry_witness :
    (runBoot { proto := "unix", addr := "", unixdir := "" } [] "s"
        (fun a => a == "n3") (fun i => "n" ++ toString i)).2 = some "n3" ∧
    (runBoot { proto := "unix", addr := "", unixdir := "" } [] "s"
        (fun _ => false) (fun i => "n" ++ toString i)).2 = none ∧
    (runBoot { proto := "tcp", addr := "", unixdir := "" } [] "s"
        (fun _ => false) (fun i => "n" ++ toString i)).2 = none := by
  refine ⟨?_, ?_, ?_⟩
  · exact (run_bind_retry { proto := "unix", addr := "", unixdir := "" } [] "s"
      (fun a => a == "n3") (fun i => "n" ++ toString i)).1
      (by decide) (by decide) (by decide) (by decide) (by decide)
  · exact ((run_bind_retry { proto := "unix", addr := "", unixdir := "" } [] "s"
      (fun _ => false) (fun i => "n" ++ toString i)).2.1
      (by decide) (fun i _ => rfl)).1
  · exact ((run_bind_retry { proto := "tcp", addr := "", unixdir := "" } [] "s"
      (fun _ => false) (fun i => "n" ++ toString i)).2.2
      rfl (fun p _ _ => rfl)).1

/-- C6 (amended): on bind-retry exhaustion, exactly one fatal handshake
line is emitted and its value is exactly
`<error-code>: Could not connect in <N> attemps, using <scheme> protocol`
— with "attemps" spelled as in the source — where `<N>` is the scheme's
retry count and `<scheme>` the protocol in use. -/
theorem run_fatal_format (conf : GoConfig) (objs : List String) (secret : String)
    (free : String → Bool) (names : Nat → String)
    (h : (runBoot conf objs secret free names).2 = none) :
    countOut (runBoot conf objs secret free names).1 "fatal" = 1 ∧
    Event.output "fatal"
        (errorCodeConnFailed ++ ": Could not connect in " ++ toString (runRetries conf)
          ++ " attemps, using " ++ runProto conf ++ " protocol")
      ∈ (runBoot conf objs secret free names).1 := by
  rw [runBoot_res] at h
  have htr := runBoot_trace_none conf objs secret free names h
  constructor
  · rw [htr, countOut_append, countOut_cons_output, countOut_runAttempts]
    rw [countOut_cons_output, countOut_nil]
    decide
  · rw [htr]
    have hm : fatalMsg errorCodeConnFailed (runRetries conf) (runProto conf)
        = errorCodeConnFailed ++ ": Could not connect in " ++ toString (runRetries conf)
          ++ " attemps, using " ++ runProto conf ++ " protocol" := rfl
    rw [hm]
    simp

/-- Witness for C6 (amended): an exhausted unix run. -/
theorem run_fatal_format_witness :
    countOut (runBoot { proto := "unix", addr := "", unixdir := "" } ["PingoRpc"] "s"
        (fun _ => false) (fun _ => "n")).1 "fatal" = 1 ∧
    Event.output "fatal"
        (errorCodeConnFailed ++ ": Could not connect in "
          ++ toString (runRetries { proto := "unix", addr := "", unixdir := "" })
          ++ " attemps, using " ++ runProto { proto := "unix", addr := "", unixdir := "" }
          ++ " protocol")
      ∈ (runBoot { proto := "unix", addr := "", unixdir := "" } ["PingoRpc"] "s"
          (fun _ => false) (fun _ => "n")).1 :=
  run_fatal_format { proto := "unix", addr := "", unixdir := "" } ["PingoRpc"] "s"
    (fun _ => false) (fun _ => "n") (by decide)

/-- Counterexample to C6 as stated: on an exhausted unix run a fatal line
is emitted (exactly one), but the claimed exact value — spelled
"attempts" — is not the value of any emitted line. -/
theorem run_fatal_format_cex :
    (runBoot { proto := "unix", addr := "", unixdir := "" } ["PingoRpc"] "s"
        (fun _ => false) (fun _ => "n")).2 = none ∧
    countOut (runBoot { proto := "unix", addr := "", unixdir := "" } ["PingoRpc"] "s"
        (fun _ => false) (fun _ => "n")).1 "fatal" = 1 ∧
    Event.output "fatal"
        (errorCodeConnFailed ++ ": Could not connect in 4 attempts, using unix protocol")
      ∉ (runBoot { proto := "unix", addr := "", unixdir := "" } ["PingoRpc"] "s"
          (fun _ => false) (fun _ => "n")).1 := by
  decide

/-- C7: in every run of the bootstrap, the objects handshake line (the
comma-and-space join of the exposed type names) is emitted exactly once
and is the first event — hence before any bind attempt; and if and only
if a bind succeeds, the auth-token line (the raw secret) and then the
ready line (`proto=<scheme> addr=<address>` with the final scheme and
bound address) are each emitted exactly once, in that order, as the
final two events. -/
theorem run_handshake_order (conf : GoConfig) (objs : List String) (secret : String)
    (free : String → Bool) (names : Nat → String) :
    (runBoot conf objs secret free names).1.head?
        = some (Event.output "objects" (goJoin objs ", ")) ∧
    countOut (runBoot conf objs secret free names).1 "objects" = 1 ∧
    ((runBoot conf objs secret free names).2.isSome ↔
      countOut (runBoot conf objs secret free names).1 "auth-token" = 1 ∧
      countOut (runBoot conf objs secret free names).1 "ready" = 1) ∧
    (∀ a, (runBoot conf objs secret free names).2 = some a →
      ∃ pre, (runBoot conf objs secret free names).1
          = pre ++ [Event.output "auth-token" secret,
                    Event.output "ready" ("proto=" ++ runProto conf ++ " addr=" ++ a)] ∧
        countOut pre "auth-token" = 0 ∧ countOut pre "ready" = 0) := by
  cases hres : (runAttempts conf free names).2 with
  | none =>
    have htr := runBoot_trace_none conf objs secret free names hres
    have hres' : (runBoot conf objs secret free names).2 = none := by
      rw [runBoot_res]
      exact hres
    refine ⟨?_, ?_, ?_, ?_⟩
    · rw [htr]
      rfl
    · rw [htr, countOut_append, countOut_cons_output, countOut_runAttempts,
        countOut_cons_output, countOut_nil]
      decide
    · rw [hres', htr, countOut_append, countOut_cons_output, countOut_runAttempts,
        countOut_cons_output, countOut_nil]
      rw [countOut_append, countOut_cons_output, countOut_runAttempts,
        countOut_cons_output, countOut_nil]
      simp
    · intro a ha
      rw [hres'] at ha
      cases ha
  | some a0 =>
    have htr := runBoot_trace_some conf objs secret free names a0 hres
    have hres' : (runBoot conf objs secret free names).2 = some a0 := by
      rw [runBoot_res]
      exact hres
    have htok : countOut (runBoot conf objs secret free names).1 "auth-token" = 1 := by
      rw [htr, countOut_append, countOut_cons_output, countOut_runAttempts,
        countOut_cons_output, countOut_cons_output, countOut_nil]
      decide
    have hready : countOut (runBoot conf objs secret free names).1 "ready" = 1 := by
      rw [htr, countOut_append, countOut_cons_output, countOut_runAttempts,
        countOut_cons_output, countOut_cons_output, countOut_nil]
      decide
    refine ⟨?_, ?_, ?_, ?_⟩
    · rw [htr]
      rfl
    · rw [htr, countOut_append, countOut_cons_output, countOut_runAttempts,
        countOut_cons_output, countOut_cons_output, countOut_nil]
      decide
    · rw [hres']
      simp [htok, hready]
    · intro a ha
      rw [hres'] at ha
      cases ha
      refine ⟨Event.output "objects" (goJoin objs ", ") :: (runAttempts conf free names).1,
        htr, ?_, ?_⟩
      · rw [countOut_cons_output, countOut_runAttempts]
        decide
      · rw [countOut_cons_output, countOut_runAttempts]
        decide

/-- Witness for C7: a unix run whose first candidate binds. -/
theorem run_handshake_order_witness :
    ∃ pre, (runBoot { proto := "unix", addr := "", unixdir := "" } ["PingoRpc"] "s"
        (fun _ => true) (fun _ => "nm")).1
      = pre ++ [Event.output "auth-token" "s",
                Event.output "ready"
                  ("proto=" ++ runProto { proto := "unix", addr := "", unixdir := "" }
                    ++ " addr=" ++ "nm")] ∧
      countOut pre "auth-token" = 0 ∧ countOut pre "ready" = 0 :=
  (run_handshake_order { proto := "unix", addr := "", unixdir := "" } ["PingoRpc"] "s"
    (fun _ => true) (fun _ => "nm")).2.2.2 "nm" (by decide)

end Pingo
